import Mathlib

/-!
Verification development for the news-finder backend.

Shallow embedding of the streaming search/recommendation pipeline
(`backend.py`), the Gemini service helpers (`gemini_service.py`), the URL
validator (`content_validator.py`) and the data model (`data_models.py`).
Python dicts parsed from JSON are modelled as association lists with unique
keys (the parser collapses duplicate keys, last value wins, as `json.loads`
does); Python exceptions are modelled with `Except`; external collaborators
(the HTTP layer and the secondary Gemini lookup) are modelled as explicit
oracle parameters.
-/

set_option maxRecDepth 100000

namespace NewsFinder

/-- Kinds of Python exceptions that the embedded code can raise.  Only the
distinctions that the control flow of the source observes are kept. -/
inductive PyErr where
  | typeError
  | keyError
  | valueError
  | attrError
  | jsonError
  | otherError
  deriving DecidableEq, Repr

/-- A JSON value as produced by `json.loads`.  Numbers keep their integer
part as an `Int` and any fractional/exponent suffix verbatim, which is
enough to decide Python truthiness and to format the values the way the
source does for the inputs that occur in this development. -/
inductive JsonVal where
  | null
  | bool (b : Bool)
  | num (i : Int) (suffix : String)
  | str (s : String)
  | arr (xs : List JsonVal)
  | obj (fs : List (String × JsonVal))

/-! ## JSON parsing (`json.loads` on the bracket span, `backend.py` 167-171) -/

/-- JSON inter-token whitespace accepted by `json.loads`. -/
def jWs (c : Char) : Bool :=
  c = ' ' || c = '\t' || c = '\n' || c = '\r'

def skipJWs : List Char → List Char
  | [] => []
  | c :: cs => if jWs c then skipJWs cs else c :: cs

def hexDigitVal (c : Char) : Option Nat :=
  if '0' ≤ c ∧ c ≤ '9' then some (c.toNat - '0'.toNat)
  else if 'a' ≤ c ∧ c ≤ 'f' then some (c.toNat - 'a'.toNat + 10)
  else if 'A' ≤ c ∧ c ≤ 'F' then some (c.toNat - 'A'.toNat + 10)
  else none

/-- Parse the body of a JSON string literal (opening quote already
consumed), handling the escape sequences `json.loads` accepts. -/
def parseStringAux (acc : List Char) : List Char → Option (String × List Char)
  | [] => none
  | '"' :: rest => some (String.mk acc.reverse, rest)
  | '\\' :: rest =>
    match rest with
    | '"' :: t => parseStringAux ('"' :: acc) t
    | '\\' :: t => parseStringAux ('\\' :: acc) t
    | '/' :: t => parseStringAux ('/' :: acc) t
    | 'b' :: t => parseStringAux ('\x08' :: acc) t
    | 'f' :: t => parseStringAux ('\x0c' :: acc) t
    | 'n' :: t => parseStringAux ('\n' :: acc) t
    | 'r' :: t => parseStringAux ('\r' :: acc) t
    | 't' :: t => parseStringAux ('\t' :: acc) t
    | 'u' :: h1 :: h2 :: h3 :: h4 :: t =>
      match hexDigitVal h1, hexDigitVal h2, hexDigitVal h3, hexDigitVal h4 with
      | some a, some b, some c, some d =>
        parseStringAux (Char.ofNat (a * 4096 + b * 256 + c * 16 + d) :: acc) t
      | _, _, _, _ => none
    | _ => none
  | c :: rest =>
    if c.toNat < 32 then none else parseStringAux (c :: acc) rest

def takeDigitsL : List Char → List Char × List Char
  | [] => ([], [])
  | c :: cs =>
    if c.isDigit then
      let (d, r) := takeDigitsL cs
      (c :: d, r)
    else ([], c :: cs)

def digitsToNat (ds : List Char) : Nat :=
  ds.foldl (fun acc c => acc * 10 + (c.toNat - '0'.toNat)) 0

/-- Parse a JSON number literal: `-?(0|[1-9][0-9]*)(\.[0-9]+)?([eE][+-]?[0-9]+)?`. -/
def parseNum (cs : List Char) : Option (JsonVal × List Char) :=
  let (neg, cs1) := match cs with
    | '-' :: t => (true, t)
    | _ => (false, cs)
  let intPart : Option (Nat × List Char) :=
    match cs1 with
    | '0' :: t => some (0, t)
    | c :: _ =>
      if c.isDigit ∧ c ≠ '0' then
        let (d, r) := takeDigitsL cs1
        some (digitsToNat d, r)
      else none
    | [] => none
  match intPart with
  | none => none
  | some (n, rest) =>
    let (fracChars, rest2) : List Char × List Char :=
      match rest with
      | '.' :: t =>
        match takeDigitsL t with
        | ([], _) => ([], '.' :: t)
        | (d, r) => ('.' :: d, r)
      | _ => ([], rest)
    let fracOk : Bool := match rest with
      | '.' :: t => ¬(takeDigitsL t).1.isEmpty
      | _ => true
    if ¬fracOk then none
    else
      let (expChars, rest3) : List Char × List Char :=
        match rest2 with
        | 'e' :: t =>
          (match t with
           | '+' :: t2 => (match takeDigitsL t2 with
             | ([], _) => ([], rest2)
             | (d, r) => ('e' :: '+' :: d, r))
           | '-' :: t2 => (match takeDigitsL t2 with
             | ([], _) => ([], rest2)
             | (d, r) => ('e' :: '-' :: d, r))
           | _ => (match takeDigitsL t with
             | ([], _) => ([], rest2)
             | (d, r) => ('e' :: d, r)))
        | 'E' :: t =>
          (match t with
           | '+' :: t2 => (match takeDigitsL t2 with
             | ([], _) => ([], rest2)
             | (d, r) => ('E' :: '+' :: d, r))
           | '-' :: t2 => (match takeDigitsL t2 with
             | ([], _) => ([], rest2)
             | (d, r) => ('E' :: '-' :: d, r))
           | _ => (match takeDigitsL t with
             | ([], _) => ([], rest2)
             | (d, r) => ('E' :: d, r)))
        | _ => ([], rest2)
      let i : Int := if neg then -(n : Int) else (n : Int)
      some (JsonVal.num i (String.mk (fracChars ++ expChars)), rest3)

/-- Insert a member into an object the way a Python dict does: a repeated
key keeps its original position but takes the new value. -/
def insertMem (fs : List (String × JsonVal)) (k : String) (v : JsonVal) :
    List (String × JsonVal) :=
  if fs.any (fun p => p.1 = k) then
    fs.map (fun p => if p.1 = k then (k, v) else p)
  else fs ++ [(k, v)]

mutual

/-- Fuel-indexed JSON value parser.  The fuel only bounds recursion depth;
`jsonLoads` supplies enough for any input. -/
def parseVal : Nat → List Char → Option (JsonVal × List Char)
  | 0, _ => none
  | Nat.succ fuel, cs =>
    match skipJWs cs with
    | 'n' :: 'u' :: 'l' :: 'l' :: rest => some (JsonVal.null, rest)
    | 't' :: 'r' :: 'u' :: 'e' :: rest => some (JsonVal.bool true, rest)
    | 'f' :: 'a' :: 'l' :: 's' :: 'e' :: rest => some (JsonVal.bool false, rest)
    | '"' :: rest =>
      match parseStringAux [] rest with
      | some (s, r) => some (JsonVal.str s, r)
      | none => none
    | '[' :: rest =>
      (match skipJWs rest with
       | ']' :: r => some (JsonVal.arr [], r)
       | other =>
         match parseElems fuel other with
         | some (xs, r) => some (JsonVal.arr xs, r)
         | none => none)
    | '\x7b' :: rest =>
      (match skipJWs rest with
       | '\x7d' :: r => some (JsonVal.obj [], r)
       | other =>
         match parseMembers fuel [] other with
         | some (fs, r) => some (JsonVal.obj fs, r)
         | none => none)
    | c :: rest =>
      if c = '-' ∨ c.isDigit then parseNum (c :: rest) else none
    | [] => none

/-- Parse the elements of a non-empty array, consuming the closing bracket. -/
def parseElems : Nat → List Char → Option (List JsonVal × List Char)
  | 0, _ => none
  | Nat.succ fuel, cs =>
    match parseVal fuel cs with
    | none => none
    | some (v, rest) =>
      match skipJWs rest with
      | ',' :: t =>
        (match parseElems fuel t with
         | some (vs, r) => some (v :: vs, r)
         | none => none)
      | ']' :: t => some ([v], t)
      | _ => none

/-- Parse the members of a non-empty object, consuming the closing brace. -/
def parseMembers : Nat → List (String × JsonVal) → List Char →
    Option (List (String × JsonVal) × List Char)
  | 0, _, _ => none
  | Nat.succ fuel, acc, cs =>
    match skipJWs cs with
    | '"' :: rest =>
      (match parseStringAux [] rest with
       | none => none
       | some (k, r1) =>
         match skipJWs r1 with
         | ':' :: r2 =>
           (match parseVal fuel r2 with
            | none => none
            | some (v, r3) =>
              let acc' := insertMem acc k v
              match skipJWs r3 with
              | ',' :: t => parseMembers fuel acc' t
              | '\x7d' :: t => some (acc', t)
              | _ => none)
         | _ => none)
    | _ => none

end

/-- `json.loads`: parse one JSON value and require only whitespace after it. -/
def jsonLoads (s : String) : Option JsonVal :=
  match parseVal (2 * s.length + 4) s.toList with
  | some (v, rest) => if (skipJWs rest).isEmpty then some v else none
  | none => none

/-! ## Bracket-span extraction (`re.search` with pattern `\[[\s\S]*\]`)

The greedy pattern matches from the first `[` that has some `]` after it to
the last `]` of the whole buffer; no match exists otherwise.  Since `[\s\S]`
matches every character, this is exactly: first `[` index `i`, last `]`
index `j`, requiring `i < j`. -/

def lastIdxOf (cs : List Char) (c : Char) : Option Nat :=
  match cs.reverse.findIdx? (· = c) with
  | some k => some (cs.length - 1 - k)
  | none => none

/-- The span `re.search(r'\[[\s\S]*\]', s)` would return, if any. -/
def regexSpan (s : String) : Option String :=
  let cs := s.toList
  match cs.findIdx? (· = '['), lastIdxOf cs ']' with
  | some i, some j =>
    if i < j then some (String.mk ((cs.drop i).take (j - i + 1))) else none
  | _, _ => none

/-- One JSON-extraction attempt over the accumulated answer text
(`backend.py` 167-171 / 329-331): find the bracket span, `json.loads` it.
A failed or missing parse yields `none` (the code catches
`JSONDecodeError` and keeps accumulating). -/
def tryParse (acc : String) : Option (List JsonVal) :=
  match regexSpan acc with
  | none => none
  | some span =>
    match jsonLoads span with
    | some (JsonVal.arr xs) => some xs
    | _ => none

/-- The stream accumulator step: append the new answer fragment and attempt
extraction, returning the grown buffer and the parse outcome. -/
def feed (acc t : String) : String × Option (List JsonVal) :=
  let a := acc ++ t
  (a, tryParse a)

/-! ## Metadata stripping (`_clean_metadata_from_text`, `gemini_service.py` 29-45) -/

/-- Python regex `\s` over ASCII. -/
def reWs (c : Char) : Bool :=
  c = ' ' || c = '\t' || c = '\n' || c = '\r' || c = '\x0b' || c = '\x0c'

def stripLit : List Char → List Char → Option (List Char)
  | [], cs => some cs
  | _, [] => none
  | l :: ls, c :: cs => if l = c then stripLit ls cs else none

/-- Match one alternative of `(?:General search \d+,?\s*|Meta search \d+,?\s*)`
at the head of the input; the pattern is deterministic here because maximal
munch of `\d+`, `,?` and `\s*` can never be backtracked usefully. -/
def alt1 (cs : List Char) : Option (List Char) :=
  match (stripLit "General search ".toList cs).orElse
        (fun _ => stripLit "Meta search ".toList cs) with
  | none => none
  | some r =>
    match takeDigitsL r with
    | ([], _) => none
    | (_, r2) =>
      let r3 := match r2 with
        | ',' :: t => t
        | _ => r2
      some (r3.dropWhile reWs)

def alt1Many : Nat → List Char → List Char
  | 0, cs => cs
  | Nat.succ fuel, cs =>
    match alt1 cs with
    | some r => alt1Many fuel r
    | none => cs

/-- Match `\[(?:General search \d+,?\s*|Meta search \d+,?\s*)+\]` at the head. -/
def pat1At (cs : List Char) : Option (List Char) :=
  match cs with
  | '[' :: rest =>
    (match alt1 rest with
     | none => none
     | some r =>
       match alt1Many rest.length r with
       | ']' :: t => some t
       | _ => none)
  | _ => none

/-- Match `\[(?:Search|Result|Source|Reference)\s*\d+\]` at the head.  The
four literals are not prefixes of one another, so first-match alternation
is deterministic. -/
def pat2At (cs : List Char) : Option (List Char) :=
  match cs with
  | '[' :: rest =>
    (match ((stripLit "Search".toList rest).orElse
             (fun _ => (stripLit "Result".toList rest).orElse
               (fun _ => (stripLit "Source".toList rest).orElse
                 (fun _ => stripLit "Reference".toList rest)))) with
     | none => none
     | some r =>
       let r1 := r.dropWhile reWs
       match takeDigitsL r1 with
       | ([], _) => none
       | (_, r2) =>
         match r2 with
         | ']' :: t => some t
         | _ => none)
  | _ => none

/-- `re.sub(pattern, '', s)`: delete the leftmost non-overlapping matches,
scanning left to right without rescanning the substituted text. -/
def subDel (m : List Char → Option (List Char)) : Nat → List Char → List Char
  | 0, cs => cs
  | Nat.succ _, [] => ([] : List Char)
  | Nat.succ fuel, c :: cs =>
    match m (c :: cs) with
    | some rest => subDel m fuel rest
    | none => c :: subDel m fuel cs

def dedupSpaces : List Char → List Char
  | [] => []
  | [c] => [c]
  | c :: d :: cs =>
    if c = ' ' ∧ d = ' ' then dedupSpaces (d :: cs)
    else c :: dedupSpaces (d :: cs)

def stripEnds (cs : List Char) : List Char :=
  ((cs.dropWhile reWs).reverse.dropWhile reWs).reverse

/-- `_clean_metadata_from_text` on a (truthy) string: delete
`[General search N, Meta search M, ...]` markers, then `[Search N]`-style
markers, then collapse whitespace runs to single spaces and strip. -/
def cleanStr (s : String) : String :=
  let cs := s.toList
  let c1 := subDel pat1At (cs.length + 1) cs
  let c2 := subDel pat2At (c1.length + 1) c1
  String.mk (stripEnds (dedupSpaces (c2.map (fun c => if reWs c then ' ' else c))))

/-! ## Python truthiness and the dynamic behavior of `_clean_metadata_from_text` -/

def fracDigits (suffix : String) : List Char :=
  match suffix.toList with
  | '.' :: t => t.takeWhile Char.isDigit
  | _ => []

/-- Whether a parsed JSON number is (numerically) zero, deciding Python
falsiness of e.g. `0`, `-0`, `0.00`, `0e5`. -/
def numIsZero (i : Int) (suffix : String) : Bool :=
  i = 0 && (fracDigits suffix).all (· = '0')

/-- Python truthiness of a value that came out of `json.loads`. -/
def pyTruthy : JsonVal → Bool
  | JsonVal.null => false
  | JsonVal.bool b => b
  | JsonVal.num i suffix => ¬numIsZero i suffix
  | JsonVal.str s => s ≠ ""
  | JsonVal.arr xs => ¬xs.isEmpty
  | JsonVal.obj fs => ¬fs.isEmpty

/-- `_clean_metadata_from_text` as called on a raw JSON value: a falsy value
is returned unchanged (`if not text: return text`); a truthy string is
cleaned; a truthy non-string reaches `re.sub`, which raises `TypeError`. -/
def cleanJ : JsonVal → Except PyErr JsonVal
  | v =>
    if ¬pyTruthy v then Except.ok v
    else
      match v with
      | JsonVal.str s => Except.ok (JsonVal.str (cleanStr s))
      | _ => Except.error PyErr.typeError

/-! ## Python value rendering and equality -/

mutual

/-- Python `repr()` of a value that came out of `json.loads`, as used inside
f-string renderings of containers.  String escaping is not reproduced; in
observable behavior only hashable scalar titles ever reach a formatted
string. -/
def pyRepr : JsonVal → String
  | JsonVal.null => "None"
  | JsonVal.bool true => "True"
  | JsonVal.bool false => "False"
  | JsonVal.num i suffix => toString i ++ suffix
  | JsonVal.str s => "\x27" ++ s ++ "\x27"
  | JsonVal.arr xs => "[" ++ pyReprList xs ++ "]"
  | JsonVal.obj fs => "\x7b" ++ pyReprFields fs ++ "\x7d"

def pyReprList : List JsonVal → String
  | [] => ""
  | [x] => pyRepr x
  | x :: y :: xs => pyRepr x ++ ", " ++ pyReprList (y :: xs)

def pyReprFields : List (String × JsonVal) → String
  | [] => ""
  | [(k, v)] => "\x27" ++ k ++ "\x27: " ++ pyRepr v
  | (k, v) :: f :: fs => "\x27" ++ k ++ "\x27: " ++ pyRepr v ++ ", " ++ pyReprFields (f :: fs)

end

/-- Python `str()` of a value that came out of `json.loads` (as an f-string
interpolates it). -/
def pyStr : JsonVal → String
  | JsonVal.str s => s
  | v => pyRepr v

mutual

/-- Structural equality of JSON values (Python `==` on the parsed data). -/
def jsonBeq : JsonVal → JsonVal → Bool
  | JsonVal.null, JsonVal.null => true
  | JsonVal.bool a, JsonVal.bool b => a = b
  | JsonVal.num i s, JsonVal.num j t => i = j ∧ s = t
  | JsonVal.str a, JsonVal.str b => a = b
  | JsonVal.arr xs, JsonVal.arr ys => jsonBeqList xs ys
  | JsonVal.obj fs, JsonVal.obj gs => jsonBeqFields fs gs
  | _, _ => false

def jsonBeqList : List JsonVal → List JsonVal → Bool
  | [], [] => true
  | x :: xs, y :: ys => jsonBeq x y && jsonBeqList xs ys
  | _, _ => false

def jsonBeqFields : List (String × JsonVal) → List (String × JsonVal) → Bool
  | [], [] => true
  | (k, v) :: fs, (l, w) :: gs => k = l && jsonBeq v w && jsonBeqFields fs gs
  | _, _ => false

end

/-- Whether a Python value is hashable (usable as a dict key). -/
def jsonHashable : JsonVal → Bool
  | JsonVal.arr _ => false
  | JsonVal.obj _ => false
  | _ => true

/-! ## Data model (`data_models.py`) and result normalization (`backend.py` 184-196) -/

/-- `ContentItem` as the backend constructs it from a raw dict.  Field values
are raw JSON values because the dataclass performs no type validation; the
construction-time `timestamp` is not modelled (no claim observes it). -/
structure ContentItem where
  title : JsonVal
  type : JsonVal
  description : JsonVal
  source : JsonVal
  relevance : JsonVal
  url : JsonVal
  validation : JsonVal

/-- Python `dict.get(k, dflt)` on a parsed JSON object. -/
def jGet (fs : List (String × JsonVal)) (k : String) (dflt : JsonVal) : JsonVal :=
  match fs.lookup k with
  | some v => v
  | none => dflt

/-- Build the `filtered_item` dict and the `ContentItem` from one raw item
(`backend.py` 186-196): every field defaults to the empty string
(`validation` to `None`), the description is metadata-stripped.  A non-dict
raises `AttributeError` at `.get`; a truthy non-string description raises
`TypeError` inside `_clean_metadata_from_text`. -/
def normalizeItem (item : JsonVal) : Except PyErr ContentItem :=
  match item with
  | JsonVal.obj fs =>
    (match cleanJ (jGet fs "description" (JsonVal.str "")) with
     | Except.error e => Except.error e
     | Except.ok cleaned =>
       Except.ok
         { title := jGet fs "title" (JsonVal.str "")
           type := jGet fs "type" (JsonVal.str "")
           description := cleaned
           source := jGet fs "source" (JsonVal.str "")
           relevance := jGet fs "relevance" (JsonVal.str "")
           url := jGet fs "url" (JsonVal.str "")
           validation := jGet fs "validation" JsonVal.null })
  | _ => Except.error PyErr.attrError

/-- The `for item in validated_data` conversion loop; the first exception
aborts the generator body. -/
def normalizeList : List JsonVal → Except PyErr (List ContentItem)
  | [] => Except.ok []
  | v :: vs =>
    match normalizeItem v with
    | Except.error e => Except.error e
    | Except.ok c =>
      match normalizeList vs with
      | Except.error e => Except.error e
      | Except.ok cs => Except.ok (c :: cs)

/-- `_get_mock_results` (`gemini_service.py` 296-307). -/
def mockResults : List JsonVal :=
  [JsonVal.obj
    [("title", JsonVal.str "Attention Is All You Need - Transformer Paper"),
     ("type", JsonVal.str "academic"),
     ("description", JsonVal.str "The groundbreaking paper that introduced the Transformer architecture, revolutionizing natural language processing."),
     ("source", JsonVal.str "arXiv"),
     ("url", JsonVal.str "https://arxiv.org/abs/1706.03762"),
     ("relevance", JsonVal.str "Foundational research in modern AI")]]

/-! ## Model-stream chunks and classification (`backend.py` 127-152) -/

/-- One `part` of a streamed candidate: `text` is `none` when the attribute
is absent. -/
structure MPart where
  text : Option String
  thought : Bool

structure MContent where
  parts : List MPart

structure MCandidate where
  content : Option MContent

/-- One opaque streaming chunk; `text` models the flat compatibility
attribute (`none` = attribute absent). -/
structure Chunk where
  candidates : List MCandidate
  text : Option String

/-- Python truthiness filter for an optional string. -/
def optTruthy : Option String → Option String
  | some t => if t = "" then none else some t
  | none => none

/-- The candidates/parts walk: concatenate truthy thought-part texts and
truthy answer-part texts of the first candidate. -/
def classifyParts (c : Chunk) : Option String × Option String :=
  match c.candidates with
  | [] => (none, none)
  | cand :: _ =>
    match cand.content with
    | none => (none, none)
    | some content =>
      if content.parts.isEmpty then (none, none)
      else
        let pieces := content.parts.filterMap (fun p =>
          match p.text with
          | some t => if t ≠ "" then some (t, p.thought) else none
          | none => none)
        let thinkingParts := (pieces.filter (fun q => q.2)).map Prod.fst
        let textParts := (pieces.filter (fun q => ¬q.2)).map Prod.fst
        (if thinkingParts.isEmpty then none else some (String.join thinkingParts),
         if textParts.isEmpty then none else some (String.join textParts))

/-- Chunk classification: parts walk, then the flat-text fallback
(`if not content_text and hasattr(chunk, 'text')`). -/
def classify (c : Chunk) : Option String × Option String :=
  let (th, ct) := classifyParts c
  match optTruthy ct with
  | some t => (th, some t)
  | none => (th, c.text)

/-! ## Events and the search-mode orchestrator (`generate_stream`, `backend.py` 98-235) -/

inductive Event where
  | thought (s : String)
  | parsingComplete (n : Nat)
  | results (items : List ContentItem)
  | chatChunk (s : String)
  | chatThought (s : String)
  | chatComplete (full : String)
  | complete
  | error (e : PyErr)

def isResults : Event → Bool
  | Event.results _ => true
  | _ => false

def isTerminal : Event → Bool
  | Event.complete => true
  | Event.chatComplete _ => true
  | Event.error _ => true
  | _ => false

def isErrorEv : Event → Bool
  | Event.error _ => true
  | _ => false

def countEv (p : Event → Bool) (evs : List Event) : Nat :=
  evs.countP p

/-- Outcome of the search-mode chunk loop: stream exhausted without results,
results sent (`break`), or an uncaught exception. -/
inductive LoopOut where
  | ended
  | sent
  | raised (e : PyErr)

/-- The thought event emitted for one chunk (`if thinking_text:`). -/
def thoughtEvts (o : Option String) : List Event :=
  match o with
  | some t => [Event.thought t]
  | none => []

/-- The parse-success block of search mode (`backend.py` 170-202): emit
`parsing_complete`, validate (empty validation of a non-empty parse falls
back to the mock list), normalize, emit `results` and break; a
normalization exception escapes after `parsing_complete` was yielded. -/
def searchParse (validate : List JsonVal → List JsonVal) (arr : List JsonVal) :
    List Event × LoopOut :=
  let validated := validate arr
  let data := if validated.isEmpty ∧ ¬arr.isEmpty then mockResults else validated
  match normalizeList data with
  | Except.ok items =>
    ([Event.parsingComplete arr.length, Event.results items], LoopOut.sent)
  | Except.error e =>
    ([Event.parsingComplete arr.length], LoopOut.raised e)

/-- The search-mode `for chunk in ...` loop (`backend.py` 124-206): per
chunk, emit the thought, accumulate answer text, attempt the JSON parse; on
success run `searchParse` and break (`LoopOut.sent` or the escaping
exception).  `JSONDecodeError` is swallowed (`tryParse` is `none`).  The
validator is the explicit `validate` parameter. -/
def searchLoop (validate : List JsonVal → List JsonVal) :
    List Chunk → String → List Event × LoopOut
  | [], _ => ([], LoopOut.ended)
  | c :: rest, acc =>
    let inner : List Event × LoopOut :=
      match optTruthy (classify c).2 with
      | none => searchLoop validate rest acc
      | some t =>
        match tryParse (acc ++ t) with
        | none => searchLoop validate rest (acc ++ t)
        | some arr => searchParse validate arr
    (thoughtEvts (optTruthy (classify c).1) ++ inner.1, inner.2)

def searchInitialThought (query : String) : String :=
  "Analyzing your query \x22" ++ query ++ "\x22 to find the most relevant and current content..."

/-- The whole search-mode generator: initial synthetic thought, the chunk
loop, the mock fallback when no results were sent, the `complete` terminal;
any uncaught exception becomes a single in-band `error` event (outer
`except`, `backend.py` 233-235). -/
def searchStream (query : String) (validate : List JsonVal → List JsonVal)
    (chunks : List Chunk) : List Event :=
  let ini := Event.thought (searchInitialThought query)
  match searchLoop validate chunks "" with
  | (evts, LoopOut.sent) => ini :: evts ++ [Event.complete]
  | (evts, LoopOut.raised e) => ini :: evts ++ [Event.error e]
  | (evts, LoopOut.ended) =>
    match normalizeList mockResults with
    | Except.ok items => ini :: evts ++ [Event.results items, Event.complete]
    | Except.error e => ini :: evts ++ [Event.error e]

/-! ## The mock streaming response (`_create_mock_streaming_response`) and
the streaming call wrapper (`_call_gemini_api_for_results_streaming`) -/

def mkThinkingChunk (t : String) : Chunk :=
  { candidates := [{ content := some { parts := [{ text := some t, thought := true }] } }],
    text := some "" }

def mkAnswerChunk (t : String) : Chunk :=
  { candidates := [{ content := some { parts := [{ text := some t, thought := false }] } }],
    text := some t }

def mockThinkingTexts : List String :=
  ["I need to search for relevant AI content based on the user\x27s query.",
   "Let me analyze what would be most valuable and current in the AI space.",
   "I\x27ll look for recent developments and foundational papers that would be helpful.",
   "Now I\x27ll compile the search results into a structured JSON format."]

/-- The `results_text` literal of `_create_mock_streaming_response`,
verbatim (including the trailing space after `"academic",`). -/
def mockResultsText : String :=
  "[\n            \x7b\n                \x22title\x22: \x22Attention Is All You Need - Transformer Paper\x22,\n                \x22type\x22: \x22academic\x22, \n                \x22description\x22: \x22The groundbreaking paper that introduced the Transformer architecture, revolutionizing natural language processing.\x22,\n                \x22source\x22: \x22arXiv\x22,\n                \x22relevance\x22: \x22Foundational research in modern AI\x22\n            \x7d\n        ]"

def mockStreamingChunks : List Chunk :=
  mockThinkingTexts.map mkThinkingChunk ++ [mkAnswerChunk mockResultsText]

/-- How the upstream generator behaves: a clean chunk stream, a stream that
raises after yielding a prefix, or no configured API key. -/
inductive StreamOutcome where
  | ok (chunks : List Chunk)
  | raisesAfter (chunks : List Chunk)
  | noApiKey

/-- The chunk sequence the orchestrator actually consumes
(`_call_gemini_api_for_results_streaming`, `gemini_service.py` 183-226):
stream errors are caught there and replaced by the mock streaming response,
so the consumer never sees the exception. -/
def callGeminiStreamingChunks : StreamOutcome → List Chunk
  | StreamOutcome.ok chunks => chunks
  | StreamOutcome.raisesAfter chunks => chunks ++ mockStreamingChunks
  | StreamOutcome.noApiKey => mockStreamingChunks

/-! ## Link resolution (`generate_links_by_title_parallel`, `gemini_service.py` 388-439)

The secondary Gemini lookup is the `lookupCall` oracle: given the formatted
title and source it either raises or returns the list of grounding-chunk
URIs (`[]` = no citations).  Thread-pool completion order is modelled as
submission order; the per-item results are independent, so only the
ordering of dict insertions (invisible to every claim) could differ. -/

def requiredItemKeys : List String :=
  ["title", "type", "description", "source", "relevance"]

def allItemKeys : List String :=
  requiredItemKeys ++ ["url", "timestamp", "validation"]

/-- `ContentItem(**item)`: `item` must be a dict whose keys cover the five
required dataclass fields and stay within the known fields, else
`TypeError`.  Values are not validated. -/
def contentItemKwargs (v : JsonVal) : Except PyErr (List (String × JsonVal)) :=
  match v with
  | JsonVal.obj fs =>
    if requiredItemKeys.all (fun k => (fs.lookup k).isSome) ∧
       fs.all (fun p => allItemKeys.contains p.1)
    then Except.ok fs
    else Except.error PyErr.typeError
  | _ => Except.error PyErr.typeError

/-- The deterministic fallback URL of `process_single_item`
(`gemini_service.py` 412 and 437): `https://google.com/search?q={title} {source}`. -/
def fallbackLink (title source : String) : String :=
  "https://google.com/search?q=" ++ title ++ " " ++ source

/-- One worker of the pool: build the `ContentItem`, call the lookup; no
grounding chunks, or any exception (re-handled in the `as_completed` loop),
yield the single fallback URL.  A `TypeError` from `ContentItem(**item)`
recurs inside the exception handler itself and escapes. -/
def processSingleItem (lookupCall : String → String → Except PyErr (List String))
    (item : JsonVal) : Except PyErr (JsonVal × List String) :=
  match contentItemKwargs item with
  | Except.error e => Except.error e
  | Except.ok fs =>
    match lookupCall (pyStr (jGet fs "title" JsonVal.null)) (pyStr (jGet fs "source" JsonVal.null)) with
    | Except.error _ =>
      Except.ok (jGet fs "title" JsonVal.null,
        [fallbackLink (pyStr (jGet fs "title" JsonVal.null)) (pyStr (jGet fs "source" JsonVal.null))])
    | Except.ok [] =>
      Except.ok (jGet fs "title" JsonVal.null,
        [fallbackLink (pyStr (jGet fs "title" JsonVal.null)) (pyStr (jGet fs "source" JsonVal.null))])
    | Except.ok uris => Except.ok (jGet fs "title" JsonVal.null, uris)

/-- `links[title] = item_links` on the Python dict keyed by raw title
values; unhashable keys raise `TypeError`. -/
def dictInsertJ (d : List (JsonVal × List String)) (k : JsonVal) (v : List String) :
    Except PyErr (List (JsonVal × List String)) :=
  if jsonHashable k then
    Except.ok
      (if d.any (fun p => jsonBeq p.1 k) then
        d.map (fun p => if jsonBeq p.1 k then (p.1, v) else p)
      else d ++ [(k, v)])
  else Except.error PyErr.typeError

def dictFindJ (d : List (JsonVal × List String)) (k : JsonVal) : Option (List String) :=
  (d.find? (fun p => jsonBeq p.1 k)).map Prod.snd

/-- The worker-pool width: `min(len(content_items), 10)`. -/
def poolMaxWorkers (content_items : List JsonVal) : Nat :=
  min content_items.length 10

def linksGo (lookupCall : String → String → Except PyErr (List String)) :
    List JsonVal → List (JsonVal × List String) →
    Except PyErr (List (JsonVal × List String))
  | [], d => Except.ok d
  | item :: items, d =>
    match processSingleItem lookupCall item with
    | Except.error e => Except.error e
    | Except.ok r =>
      match dictInsertJ d r.1 r.2 with
      | Except.error e => Except.error e
      | Except.ok d2 => linksGo lookupCall items d2

/-- `generate_links_by_title_parallel`: `ThreadPoolExecutor` validates its
width (CPython raises `ValueError("max_workers must be greater than 0")`
when `max_workers <= 0`), then every item is processed and inserted into
the title-keyed dict. -/
def generate_links_by_title_parallel
    (lookupCall : String → String → Except PyErr (List String))
    (content_items : List JsonVal) : Except PyErr (List (JsonVal × List String)) :=
  if poolMaxWorkers content_items = 0 then Except.error PyErr.valueError
  else linksGo lookupCall content_items []

/-! ## Recommendation-mode orchestrator (`generate_stream_attempt`, `backend.py` 251-404) -/

/-- The recommendation-mode fallback URL built inline in the backend
(`backend.py` 346): note `www.` and `+`, unlike `fallbackLink`. -/
def recFallbackUrl (titleV sourceV : JsonVal) : String :=
  "https://www.google.com/search?q=" ++ pyStr titleV ++ "+" ++ pyStr sourceV

/-- The `for item in validated_data` URL-assignment loop (`backend.py`
342-346): look the raw title up in the links dict, else construct the
inline fallback URL; missing keys raise `KeyError`, non-dict items and
unhashable titles `TypeError`. -/
def assignOneUrl (linksDict : List (JsonVal × List String))
    (fs : List (String × JsonVal)) (titleV : JsonVal) : Except PyErr JsonVal :=
  match dictFindJ linksDict titleV with
  | some ls =>
    if 0 < ls.length then Except.ok (JsonVal.str (ls.headD ""))
    else
      match fs.lookup "source" with
      | some sv => Except.ok (JsonVal.str (recFallbackUrl titleV sv))
      | none => Except.error PyErr.keyError
  | none =>
    match fs.lookup "source" with
    | some sv => Except.ok (JsonVal.str (recFallbackUrl titleV sv))
    | none => Except.error PyErr.keyError

def assignUrls (linksDict : List (JsonVal × List String)) :
    List JsonVal → Except PyErr (List JsonVal)
  | [] => Except.ok []
  | item :: items =>
    match item with
    | JsonVal.obj fs =>
      (match fs.lookup "title" with
       | none => Except.error PyErr.keyError
       | some titleV =>
         if jsonHashable titleV then
           match assignOneUrl linksDict fs titleV with
           | Except.error e => Except.error e
           | Except.ok url =>
             match assignUrls linksDict items with
             | Except.error e => Except.error e
             | Except.ok rest => Except.ok (JsonVal.obj (insertMem fs "url" url) :: rest)
         else Except.error PyErr.typeError)
    | _ => Except.error PyErr.typeError

/-- The recommendation post-stream block after a successful parse
(`backend.py` 337-364): resolve links, assign URLs in place, normalize.
Any exception here is caught (`KeyError` at 370, the rest at 374) and
simply leaves `results_sent` false. -/
def recFinish (lookupCall : String → String → Except PyErr (List String))
    (arr : List JsonVal) : Except PyErr (List ContentItem) :=
  match generate_links_by_title_parallel lookupCall arr with
  | Except.error e => Except.error e
  | Except.ok d =>
    match assignUrls d arr with
    | Except.error e => Except.error e
    | Except.ok withUrls => normalizeList withUrls

/-- The recommendation-mode chunk loop (`backend.py` 279-322): emit
thoughts, accumulate answer text — no parse attempt per chunk. -/
def recLoop : List Chunk → String → List Event × String
  | [], acc => ([], acc)
  | c :: rest, acc =>
    let acc2 := match optTruthy (classify c).2 with
      | some t => acc ++ t
      | none => acc
    let r := recLoop rest acc2
    (thoughtEvts (optTruthy (classify c).1) ++ r.1, r.2)

def recInitialThought : String :=
  "Analyzing current AI trends and developments to provide you with the most relevant recommendations..."

/-- The whole recommendation-mode generator: initial synthetic thought, the
full chunk loop (a stream exception mid-iteration jumps to the
`api_error` handler, skipping the parse), a single parse attempt on the
complete accumulation, the link/normalize block whose failures are caught,
then the mock fallback when nothing was sent, then `complete`. -/
def recStream (lookupCall : String → String → Except PyErr (List String))
    (chunks : List Chunk) (streamRaises : Bool) : List Event :=
  let ini := Event.thought recInitialThought
  let lr := recLoop chunks ""
  let main : List Event × Bool :=
    if streamRaises then (lr.1, false)
    else
      match tryParse lr.2 with
      | none => (lr.1, false)
      | some arr =>
        match recFinish lookupCall arr with
        | Except.ok items =>
          (lr.1 ++ [Event.parsingComplete arr.length, Event.results items], true)
        | Except.error _ =>
          (lr.1 ++ [Event.parsingComplete arr.length], false)
  if main.2 then ini :: main.1 ++ [Event.complete]
  else
    match normalizeList mockResults with
    | Except.ok items => ini :: main.1 ++ [Event.results items, Event.complete]
    | Except.error e => ini :: main.1 ++ [Event.error e]

/-! ## URL validation (`content_validator.py`)

HTTP requests are the `HttpOracle`: per URL, the HEAD and GET outcomes and
whether the fetched YouTube page carries a non-default title.  `timeout`
stands for `requests.exceptions.Timeout`, `reqError` for every other
`RequestException` (`Timeout` is a `RequestException` subclass, so inner
`except RequestException` handlers catch both). -/

inductive ReqOutcome where
  | ok (status : Nat) (contentType : String)
  | timeout
  | reqError

structure HttpOracle where
  head : String → ReqOutcome
  get : String → ReqOutcome
  pageTitleOk : String → Bool

/-- The mutable `validation_result` dict of `validate_url`. -/
structure ValidationResult where
  url : String
  is_valid : Bool
  status_code : Option Nat
  error : Option String
  content_type_detected : Option String
  title_verified : Bool

def initResult (url : String) : ValidationResult :=
  { url := url, is_valid := false, status_code := none, error := none,
    content_type_detected := none, title_verified := false }

def containsSub : List Char → List Char → Bool
  | _, [] => true
  | [], _ => false
  | c :: cs, pat => (stripLit pat (c :: cs)).isSome || containsSub cs pat

/-- Substring test (Python `in` on strings). -/
def strContains (s sub : String) : Bool :=
  containsSub s.toList sub.toList

/-- Split at the first `://`, returning the reversed-accumulated scheme and
the remainder. -/
def splitSchemeAux : List Char → List Char → Option (List Char × List Char)
  | _, [] => none
  | acc, c :: cs =>
    match stripLit "://".toList (c :: cs) with
    | some r => some (acc.reverse, r)
    | none => splitSchemeAux (c :: acc) cs

/-- Simplified `urlparse`, adequate for `scheme://netloc/...` URLs: the
scheme before the first `://`, the netloc up to the next delimiter. -/
def parseUrl (url : String) : String × String :=
  match splitSchemeAux [] url.toList with
  | none => ("", "")
  | some (sch, rest) =>
    (String.mk sch,
     String.mk (rest.takeWhile (fun c => c ≠ '/' ∧ c ≠ '?' ∧ c ≠ '#')))

def idChar (c : Char) : Bool :=
  c.isAlphanum || c = '_' || c = '-'

def ytIdAfter : List Char → Bool
  | c :: _ => idChar c
  | [] => false

/-- `re.search(r'(?:youtube\.com/watch\?v=|youtu\.be/)([a-zA-Z0-9_-]+)', url)`
viewed as a Boolean: some position starts one of the two literals followed
by at least one id character. -/
def ytIdSearch : List Char → Bool
  | [] => false
  | c :: cs =>
    (match stripLit "youtube.com/watch?v=".toList (c :: cs) with
     | some r => ytIdAfter r
     | none => false) ||
    (match stripLit "youtu.be/".toList (c :: cs) with
     | some r => ytIdAfter r
     | none => false) ||
    ytIdSearch cs

/-- `_validate_youtube_video` (`content_validator.py` 56-95). -/
def validateYoutube (o : HttpOracle) (url : String) (r0 : ValidationResult) :
    ValidationResult :=
  if ¬ytIdSearch url.toList then
    { r0 with error := some "Could not extract YouTube video ID" }
  else
    match o.head url with
    | ReqOutcome.ok st _ =>
      if st = 200 then
        { r0 with
            status_code := some st, is_valid := true,
            content_type_detected := some "video",
            title_verified := (match o.get url with
              | ReqOutcome.ok 200 _ => o.pageTitleOk url
              | _ => false) }
      else if st = 404 ∨ st = 410 then
        { r0 with status_code := some st, error := some "YouTube video not found or removed" }
      else
        { r0 with status_code := some st, error := some "YouTube video inaccessible" }
    | ReqOutcome.timeout => { r0 with error := some "YouTube video validation timeout" }
    | ReqOutcome.reqError => { r0 with error := some "YouTube video validation failed" }

def podcastPlatform (url : String) : Bool :=
  ["spotify.com", "apple.com/podcasts", "podcasts.apple.com", "anchor.fm",
   "soundcloud.com"].any (fun p => strContains url.toLower p)

/-- `_validate_podcast` (`content_validator.py` 97-121). -/
def validatePodcast (o : HttpOracle) (url : String) (r0 : ValidationResult) :
    ValidationResult :=
  match o.head url with
  | ReqOutcome.ok st cty =>
    if st = 200 then
      if podcastPlatform url || strContains cty.toLower "audio/" then
        { r0 with
            status_code := some st, is_valid := true,
            content_type_detected := some "podcast" }
      else
        { r0 with
            status_code := some st,
            error := some "URL does not appear to be a valid podcast" }
    else
      { r0 with status_code := some st, error := some "Podcast not accessible" }
  | ReqOutcome.timeout => { r0 with error := some "Podcast validation timeout" }
  | ReqOutcome.reqError => { r0 with error := some "Podcast validation failed" }

/-- `_validate_general_url` (`content_validator.py` 123-147): HEAD, falling
back to GET on any `RequestException`; a completed response is valid
exactly when its status code is 200 or 403. -/
def validateGeneral (o : HttpOracle) (url : String) (r0 : ValidationResult) :
    ValidationResult :=
  match o.head url with
  | ReqOutcome.ok st _ =>
    { r0 with status_code := some st, is_valid := st = 200 || st = 403 }
  | _ =>
    match o.get url with
    | ReqOutcome.ok st _ =>
      { r0 with status_code := some st, is_valid := st = 200 || st = 403 }
    | ReqOutcome.timeout => { r0 with error := some "URL validation timeout" }
    | ReqOutcome.reqError => { r0 with error := some "URL validation failed" }

/-- `validate_url` (`content_validator.py` 24-54): URL-format check, then
dispatch on content type (YouTube video / podcast / general). -/
def validate_url (o : HttpOracle) (url : String) (content_type : String) :
    ValidationResult :=
  let r0 := initResult url
  let parsed := parseUrl url
  if parsed.1 = "" ∨ parsed.2 = "" then
    { r0 with error := some "Invalid URL format" }
  else if content_type = "video" ∧ strContains parsed.2 "youtube.com" then
    validateYoutube o url r0
  else if content_type = "video" ∧ strContains parsed.2 "youtu.be" then
    validateYoutube o url r0
  else if content_type = "podcast" then
    validatePodcast o url r0
  else
    validateGeneral o url r0

/-- The `validation` sub-record attached to a retained item; `now` is the
`datetime.now().isoformat()` string. -/
def validationJson (now : String) (vr : ValidationResult) : JsonVal :=
  JsonVal.obj
    [("validated_at", JsonVal.str now),
     ("status_code", match vr.status_code with
       | some st => JsonVal.num (st : Int) ""
       | none => JsonVal.null),
     ("content_type_verified", match vr.content_type_detected with
       | some c => JsonVal.str c
       | none => JsonVal.null)]

/-- `validate_single_item` (`content_validator.py` 153-174): any exception
(non-dict item, non-string URL reaching `urlparse`) is caught and the item
dropped; a valid URL annotates the item with the validation record. -/
def validate_single_item (o : HttpOracle) (now : String) (item : JsonVal) :
    Option JsonVal :=
  match item with
  | JsonVal.obj fs =>
    match jGet fs "url" (JsonVal.str "") with
    | JsonVal.str u =>
      let ct := match jGet fs "type" (JsonVal.str "") with
        | JsonVal.str c => c
        | _ => ""
      let vr := validate_url o u ct
      if vr.is_valid then some (JsonVal.obj (insertMem fs "validation" (validationJson now vr)))
      else none
    | _ => none
  | _ => none

/-- `validate_content_batch` (`content_validator.py` 149-190): keep the
items whose URL validates, in completion order (modelled as input order). -/
def validate_content_batch (o : HttpOracle) (now : String)
    (content_items : List JsonVal) : List JsonVal :=
  content_items.filterMap (validate_single_item o now)

/-! ## Chat-session registry (`gemini_service.py` 528-573)

`active_chats` is modelled as a partial map from chat id to session; a
session carries the SDK chat history (role, per-part optional text). -/

structure HMsg where
  role : String
  parts : List (Option String)

structure ChatSessionM where
  history : List HMsg

def Registry : Type := String → Option ChatSessionM

/-- `''.join(part.text for parts with the attribute)` guarded by
`if message.parts`. -/
def msgContent (m : HMsg) : String :=
  if m.parts.isEmpty then "" else String.join (m.parts.filterMap id)

/-- Python `str.strip()` over ASCII whitespace. -/
def stripPy (s : String) : String :=
  String.mk (stripEnds s.toList)

/-- The history-formatting loop of `get_chat_history` (`gemini_service.py`
546-568): keep user/model messages with non-blank content that are not the
synthetic setup turns, renaming `model` to `assistant`. -/
def formatHistory : List HMsg → List (String × String)
  | [] => []
  | m :: ms =>
    let rest := formatHistory ms
    if m.role = "user" ∨ m.role = "model" then
      let content := msgContent m
      if stripPy content ≠ "" ∧
         ¬content.startsWith "Please act according to these instructions" ∧
         ¬content.startsWith "We are discussing this specific article:" then
        (if m.role = "model" then "assistant" else m.role, stripPy content) :: rest
      else rest
    else rest

/-- `get_chat_history`: an unknown id yields the empty list. -/
def get_chat_history (reg : Registry) (chat_id : String) : List (String × String) :=
  match reg chat_id with
  | some chat => formatHistory chat.history
  | none => []

/-- `clear_chat_session`: delete the one entry if present. -/
def clear_chat_session (reg : Registry) (chat_id : String) : Registry :=
  fun k => if k = chat_id then none else reg k

/-- `clear_all_chat_sessions`. -/
def clear_all_chat_sessions (_ : Registry) : Registry :=
  fun _ => none

/-! ## Shared concrete values and helper lemmas -/

/-- The mock item once normalized (its description contains no metadata
markers, so stripping leaves it unchanged). -/
def mockContentItem : ContentItem :=
  { title := JsonVal.str "Attention Is All You Need - Transformer Paper"
    type := JsonVal.str "academic"
    description := JsonVal.str "The groundbreaking paper that introduced the Transformer architecture, revolutionizing natural language processing."
    source := JsonVal.str "arXiv"
    relevance := JsonVal.str "Foundational research in modern AI"
    url := JsonVal.str "https://arxiv.org/abs/1706.03762"
    validation := JsonVal.null }

theorem normalizeList_mockResults :
    normalizeList mockResults = Except.ok [mockContentItem] := by
  rfl

/-- An HTTP oracle whose every request answers 200. -/
def oracle200 : HttpOracle :=
  { head := fun _ => ReqOutcome.ok 200 "text/html"
    get := fun _ => ReqOutcome.ok 200 "text/html"
    pageTitleOk := fun _ => true }

/-- A well-formed raw item with title `T` and source `S`. -/
def itemTS : JsonVal :=
  JsonVal.obj
    [("title", JsonVal.str "T"), ("type", JsonVal.str "article"),
     ("description", JsonVal.str "D"), ("source", JsonVal.str "S"),
     ("relevance", JsonVal.str "R")]

theorem classify_answer_chunk (t : String) (h1 : t ≠ "") :
    classify (mkAnswerChunk t) = (none, some t) := by
  simp [classify, classifyParts, mkAnswerChunk, optTruthy, h1, String.join]

theorem classify_thinking_chunk (t : String) (h1 : t ≠ "") :
    classify (mkThinkingChunk t) = (some t, some "") := by
  simp [classify, classifyParts, mkThinkingChunk, optTruthy, h1, String.join]

/-! ## Claim theorems -/

/-- C3: feeding the accumulator the successive answer fragments `[`,
`{"a":1}`, `]` yields no result on the first two calls and the parsed list
`[{"a":1}]` on the third; moreover a failed parse is silent — the
search-mode loop emits nothing for such a chunk and simply continues with
the grown buffer. -/
theorem accumulator_sequence_c3 :
    (feed "" "[").2 = none ∧
    (feed (feed "" "[").1 "\x7b\x22a\x22:1\x7d").2 = none ∧
    feed (feed (feed "" "[").1 "\x7b\x22a\x22:1\x7d").1 "]" =
      ("[\x7b\x22a\x22:1\x7d]", some [JsonVal.obj [("a", JsonVal.num 1 "")]]) ∧
    ∀ (validate : List JsonVal → List JsonVal) (acc t : String) (rest : List Chunk),
      t ≠ "" → tryParse (acc ++ t) = none →
      searchLoop validate (mkAnswerChunk t :: rest) acc = searchLoop validate rest (acc ++ t) := by
  refine ⟨rfl, rfl, rfl, ?_⟩
  intro validate acc t rest h1 h2
  simp [searchLoop, classify_answer_chunk t h1, optTruthy, h1, h2, thoughtEvts]

/-- Witness for C3's silent-continuation clause at a concrete input. -/
theorem accumulator_sequence_c3_witness :
    searchLoop (fun xs => xs) [mkAnswerChunk "["] "" = searchLoop (fun xs => xs) [] "[" := by
  have h := accumulator_sequence_c3.2.2.2 (fun xs => xs) "" "[" [] (by decide) (by rfl)
  simpa using h

/-- C5 counterexample: metadata stripping is not idempotent — deleting the
inner `[Search 1]` marker from `[Sea[Search 1]rch 2]` splices the
surrounding text into a fresh `[Search 2]` marker, which only a second
pass removes. -/
theorem clean_idempotent_counterexample :
    cleanStr (cleanStr "[Sea[Search 1]rch 2]") ≠ cleanStr "[Sea[Search 1]rch 2]" := by
  decide

/-- C5 (amended): metadata stripping maps the example
`"Great paper [Search 1] on AI [General search 2, Meta search 1]"` to
`"Great paper on AI"`, and on this example a second strip is the identity;
idempotence does not hold for every string. -/
theorem clean_example_c5 :
    cleanStr "Great paper [Search 1] on AI [General search 2, Meta search 1]" =
      "Great paper on AI" ∧
    cleanStr (cleanStr "Great paper [Search 1] on AI [General search 2, Meta search 1]") =
      cleanStr "Great paper [Search 1] on AI [General search 2, Meta search 1]" := by
  exact ⟨rfl, rfl⟩

theorem contentItemKwargs_error (v : JsonVal) (e : PyErr)
    (h : contentItemKwargs v = Except.error e) : e = PyErr.typeError := by
  cases v <;> simp [contentItemKwargs] at h <;> try exact h.symm
  case obj fs =>
    split at h
    · simp at h
    · simpa using h.symm

theorem processSingleItem_ok_nonempty
    (lookupCall : String → String → Except PyErr (List String)) (item : JsonVal)
    (titleV : JsonVal) (ls : List String)
    (h : processSingleItem lookupCall item = Except.ok (titleV, ls)) : ls ≠ [] := by
  unfold processSingleItem at h
  cases hk : contentItemKwargs item with
  | error e => rw [hk] at h; simp at h
  | ok fs =>
    rw [hk] at h
    dsimp only at h
    cases hl : lookupCall (pyStr (jGet fs "title" JsonVal.null)) (pyStr (jGet fs "source" JsonVal.null)) with
    | error e => rw [hl] at h; simp at h; simp [← h.2]
    | ok uris =>
      rw [hl] at h
      cases uris with
      | nil => simp at h; simp [← h.2]
      | cons u us => simp at h; simp [← h.2]

theorem processSingleItem_error
    (lookupCall : String → String → Except PyErr (List String)) (item : JsonVal)
    (e : PyErr) (h : processSingleItem lookupCall item = Except.error e) :
    e = PyErr.typeError := by
  unfold processSingleItem at h
  cases hk : contentItemKwargs item with
  | error e2 =>
    rw [hk] at h
    simp at h
    exact h ▸ contentItemKwargs_error item e2 hk
  | ok fs =>
    rw [hk] at h
    dsimp only at h
    cases hl : lookupCall (pyStr (jGet fs "title" JsonVal.null)) (pyStr (jGet fs "source" JsonVal.null)) with
    | error e2 => rw [hl] at h; simp at h
    | ok uris => rw [hl] at h; cases uris <;> simp at h

theorem dictInsertJ_error (d : List (JsonVal × List String)) (k : JsonVal)
    (v : List String) (e : PyErr) (h : dictInsertJ d k v = Except.error e) :
    e = PyErr.typeError := by
  unfold dictInsertJ at h
  split at h
  · simp at h
  · simpa using h.symm

theorem dictInsertJ_values (d : List (JsonVal × List String)) (k : JsonVal)
    (v : List String) (d2 : List (JsonVal × List String))
    (h : dictInsertJ d k v = Except.ok d2) :
    ∀ p ∈ d2, p.2 = v ∨ p ∈ d := by
  unfold dictInsertJ at h
  split at h
  · simp only [Except.ok.injEq] at h
    subst h
    intro p hp
    by_cases hany : d.any (fun q => jsonBeq q.1 k)
    · simp only [hany, if_true] at hp
      rcases List.mem_map.mp hp with ⟨q, hq, hpq⟩
      by_cases hb : jsonBeq q.1 k
      · simp [hb] at hpq; subst hpq; left; rfl
      · simp [hb] at hpq; subst hpq; right; exact hq
    · simp only [hany, if_false] at hp
      rcases List.mem_append.mp hp with hq | hq
      · right; exact hq
      · left; simp at hq; simp [hq]
  · simp at h

theorem linksGo_values (lookupCall : String → String → Except PyErr (List String)) :
    ∀ (items : List JsonVal) (d d2 : List (JsonVal × List String)),
      linksGo lookupCall items d = Except.ok d2 →
      (∀ p ∈ d, p.2 ≠ []) → ∀ p ∈ d2, p.2 ≠ [] := by
  intro items
  induction items with
  | nil =>
    intro d d2 h hd
    simp only [linksGo, Except.ok.injEq] at h
    exact h ▸ hd
  | cons item items ih =>
    intro d d2 h hd
    simp only [linksGo] at h
    cases hp : processSingleItem lookupCall item with
    | error e => rw [hp] at h; simp at h
    | ok r =>
      rw [hp] at h
      dsimp only at h
      cases hi : dictInsertJ d r.1 r.2 with
      | error e => rw [hi] at h; simp at h
      | ok dmid =>
        rw [hi] at h
        refine ih dmid d2 h ?_
        intro p hpmem
        rcases dictInsertJ_values d r.1 r.2 dmid hi p hpmem with hv | hold
        · rw [hv]
          exact processSingleItem_ok_nonempty lookupCall item r.1 r.2 (by rw [hp])
        · exact hd p hold

theorem linksGo_no_valueError (lookupCall : String → String → Except PyErr (List String)) :
    ∀ (items : List JsonVal) (d : List (JsonVal × List String)),
      linksGo lookupCall items d ≠ Except.error PyErr.valueError := by
  intro items
  induction items with
  | nil => intro d h; simp [linksGo] at h
  | cons item items ih =>
    intro d h
    simp only [linksGo] at h
    cases hp : processSingleItem lookupCall item with
    | error e =>
      rw [hp] at h
      simp only [Except.error.injEq] at h
      exact absurd (h ▸ processSingleItem_error lookupCall item e hp) (by simp [h])
    | ok r =>
      rw [hp] at h
      dsimp only at h
      cases hi : dictInsertJ d r.1 r.2 with
      | error e =>
        rw [hi] at h
        simp only [Except.error.injEq] at h
        have := dictInsertJ_error d r.1 r.2 e hi
        rw [this] at h
        exact PyErr.noConfusion h
      | ok dmid =>
        rw [hi] at h
        exact ih dmid h

/-- C6 counterexample: when the secondary lookup raises, the fallback
candidate list is `["https://google.com/search?q=T S"]` — no `www.`
subdomain and a space separator — not the claimed
`"https://www.google.com/search?q=T+S"`. -/
theorem link_fallback_counterexample :
    processSingleItem (fun _ _ => Except.error PyErr.otherError) itemTS =
      Except.ok (JsonVal.str "T", ["https://google.com/search?q=T S"]) ∧
    ("https://google.com/search?q=T S" : String) ≠ "https://www.google.com/search?q=T+S" := by
  exact ⟨rfl, by decide⟩

/-- C6 (amended): for every well-formed input item the resolver returns a
non-empty ordered candidate list; when the lookup raises or yields no
citations the list is exactly the single deterministic fallback URL
`https://google.com/search?q=<title> <source>` built from the item's title
and source (the error is swallowed, never propagated); and every value of
the mapping returned by `generate_links_by_title_parallel` is non-empty. -/
theorem link_resolution_fallback_c6 :
    (∀ (lookupCall : String → String → Except PyErr (List String)) (item : JsonVal)
       (fs : List (String × JsonVal)), contentItemKwargs item = Except.ok fs →
       ∃ ls, processSingleItem lookupCall item = Except.ok (jGet fs "title" JsonVal.null, ls) ∧
         ls ≠ [] ∧
         (∀ e, lookupCall (pyStr (jGet fs "title" JsonVal.null))
                 (pyStr (jGet fs "source" JsonVal.null)) = Except.error e →
           ls = [fallbackLink (pyStr (jGet fs "title" JsonVal.null))
                   (pyStr (jGet fs "source" JsonVal.null))]) ∧
         (lookupCall (pyStr (jGet fs "title" JsonVal.null))
             (pyStr (jGet fs "source" JsonVal.null)) = Except.ok [] →
           ls = [fallbackLink (pyStr (jGet fs "title" JsonVal.null))
                   (pyStr (jGet fs "source" JsonVal.null))])) ∧
    (∀ (lookupCall : String → String → Except PyErr (List String))
       (items : List JsonVal) (d : List (JsonVal × List String)),
       generate_links_by_title_parallel lookupCall items = Except.ok d →
       ∀ p ∈ d, p.2 ≠ []) := by
  constructor
  · intro lookupCall item fs hk
    cases hl : lookupCall (pyStr (jGet fs "title" JsonVal.null))
        (pyStr (jGet fs "source" JsonVal.null)) with
    | error e =>
      refine ⟨[fallbackLink (pyStr (jGet fs "title" JsonVal.null))
        (pyStr (jGet fs "source" JsonVal.null))], ?_, by simp, fun _ _ => rfl, fun _ => rfl⟩
      unfold processSingleItem
      rw [hk]
      dsimp only
      rw [hl]
    | ok uris =>
      cases uris with
      | nil =>
        refine ⟨[fallbackLink (pyStr (jGet fs "title" JsonVal.null))
          (pyStr (jGet fs "source" JsonVal.null))], ?_, by simp, fun _ _ => rfl, fun _ => rfl⟩
        unfold processSingleItem
        rw [hk]
        dsimp only
        rw [hl]
      | cons u us =>
        refine ⟨u :: us, ?_, by simp, ?_, ?_⟩
        · unfold processSingleItem
          rw [hk]
          dsimp only
          rw [hl]
        · intro e he
          exact Except.noConfusion he
        · intro he
          simp at he
  · intro lookupCall items d h
    unfold generate_links_by_title_parallel at h
    split at h
    · simp at h
    · exact linksGo_values lookupCall items [] d h (by simp)

/-- Witness for C6 (amended) at a concrete item whose lookup yields no
citations. -/
theorem link_resolution_fallback_c6_witness :
    ∃ ls, processSingleItem (fun _ _ => Except.ok []) itemTS =
        Except.ok (JsonVal.str "T", ls) ∧ ls ≠ [] := by
  obtain ⟨ls, hok, hne, -, -⟩ :=
    link_resolution_fallback_c6.1 (fun _ _ => Except.ok []) itemTS
      [("title", JsonVal.str "T"), ("type", JsonVal.str "article"),
       ("description", JsonVal.str "D"), ("source", JsonVal.str "S"),
       ("relevance", JsonVal.str "R")] rfl
  exact ⟨ls, hok, hne⟩

/-- C9: `generate_links_by_title_parallel([])` raises (the pool width
`min(0, 10) = 0` makes `ThreadPoolExecutor` raise `ValueError`), while for
every non-empty item list the pool width is `min(count, 10) > 0` and no
`ValueError` can arise. -/
theorem links_empty_pool_c9 :
    (∀ (lookupCall : String → String → Except PyErr (List String)),
      generate_links_by_title_parallel lookupCall [] = Except.error PyErr.valueError) ∧
    (∀ (lookupCall : String → String → Except PyErr (List String))
       (items : List JsonVal), items ≠ [] →
      poolMaxWorkers items = min items.length 10 ∧ 0 < poolMaxWorkers items ∧
      generate_links_by_title_parallel lookupCall items ≠ Except.error PyErr.valueError) := by
  constructor
  · intro lookupCall; rfl
  · intro lookupCall items hne
    have hpos : 0 < poolMaxWorkers items := by
      unfold poolMaxWorkers
      exact lt_min (List.length_pos.mpr hne) (by norm_num)
    refine ⟨rfl, hpos, ?_⟩
    unfold generate_links_by_title_parallel
    split
    · omega
    · exact linksGo_no_valueError lookupCall items []

/-- Witness for C9's non-empty clause at a one-item list. -/
theorem links_empty_pool_c9_witness :
    0 < poolMaxWorkers [itemTS] ∧
    generate_links_by_title_parallel (fun _ _ => Except.ok []) [itemTS] ≠
      Except.error PyErr.valueError := by
  have h := links_empty_pool_c9.2 (fun _ _ => Except.ok []) [itemTS] (by simp)
  exact ⟨h.2.1, h.2.2⟩

theorem cleanJ_falsy (v : JsonVal) (h : pyTruthy v = false) :
    cleanJ v = Except.ok v := by
  simp [cleanJ, h]

theorem cleanJ_str (s : String) :
    cleanJ (JsonVal.str s) = Except.ok (JsonVal.str (if s = "" then s else cleanStr s)) := by
  by_cases h : s = ""
  · simp [cleanJ, pyTruthy, h]
  · simp [cleanJ, pyTruthy, h]

/-- C7 counterexample: with title, type, source, relevance and url all
absent, a raw dict whose (present) description is the number `123` makes
the normalization raise — `_clean_metadata_from_text` hands a truthy
non-string to `re.sub`, a `TypeError`. -/
theorem normalize_raises_counterexample :
    normalizeItem (JsonVal.obj [("description", JsonVal.num 123 "")]) =
      Except.error PyErr.typeError := by
  rfl

/-- C7 (amended): normalization never raises on a raw dict as long as the
description field is absent, a string, or falsy — in particular whenever
fields are merely missing — and each absent field defaults to the empty
string (`validation` to `None`), producing a `ContentItem`. -/
theorem normalize_missing_defaults_c7 :
    ∀ (fs : List (String × JsonVal)),
      (∀ v, fs.lookup "description" = some v →
        (∃ s, v = JsonVal.str s) ∨ pyTruthy v = false) →
      ∃ ci, normalizeItem (JsonVal.obj fs) = Except.ok ci ∧
        (fs.lookup "title" = none → ci.title = JsonVal.str "") ∧
        (fs.lookup "type" = none → ci.type = JsonVal.str "") ∧
        (fs.lookup "description" = none → ci.description = JsonVal.str "") ∧
        (fs.lookup "source" = none → ci.source = JsonVal.str "") ∧
        (fs.lookup "relevance" = none → ci.relevance = JsonVal.str "") ∧
        (fs.lookup "url" = none → ci.url = JsonVal.str "") ∧
        (fs.lookup "validation" = none → ci.validation = JsonVal.null) := by
  intro fs hdesc
  have hclean : ∃ r, cleanJ (jGet fs "description" (JsonVal.str "")) = Except.ok r ∧
      (fs.lookup "description" = none → r = JsonVal.str "") := by
    cases hd : fs.lookup "description" with
    | none =>
      refine ⟨JsonVal.str "", ?_, fun _ => rfl⟩
      simp [jGet, hd, cleanJ, pyTruthy]
    | some v =>
      rcases hdesc v hd with ⟨s, rfl⟩ | hf
      · refine ⟨JsonVal.str (if s = "" then s else cleanStr s), ?_, ?_⟩
        · simp [jGet, hd, cleanJ_str]
        · intro h0
          exact Option.noConfusion h0
      · refine ⟨v, ?_, ?_⟩
        · simp [jGet, hd, cleanJ_falsy v hf]
        · intro h0
          exact Option.noConfusion h0
  obtain ⟨r, hr, hrdesc⟩ := hclean
  refine ⟨{ title := jGet fs "title" (JsonVal.str "")
            type := jGet fs "type" (JsonVal.str "")
            description := r
            source := jGet fs "source" (JsonVal.str "")
            relevance := jGet fs "relevance" (JsonVal.str "")
            url := jGet fs "url" (JsonVal.str "")
            validation := jGet fs "validation" JsonVal.null }, ?_, ?_, ?_, ?_, ?_, ?_, ?_, ?_⟩
  · simp [normalizeItem, hr]
  · intro h; simp [jGet, h]
  · intro h; simp [jGet, h]
  · intro h; exact hrdesc h
  · intro h; simp [jGet, h]
  · intro h; simp [jGet, h]
  · intro h; simp [jGet, h]
  · intro h; simp [jGet, h]

/-- Witness for C7 (amended) at the fully-empty raw dict. -/
theorem normalize_missing_defaults_c7_witness :
    ∃ ci, normalizeItem (JsonVal.obj []) = Except.ok ci ∧ ci.title = JsonVal.str "" := by
  obtain ⟨ci, hok, ht, -, -, -, -, -, -⟩ :=
    normalize_missing_defaults_c7 [] (by intro v hv; simp at hv)
  exact ⟨ci, hok, ht rfl⟩

/-- C8: clearing a chat session removes exactly that session — a
subsequent history fetch for the cleared id yields `[]`, while every other
id maps to the same session and the same fetched history as before. -/
theorem clear_session_frame_c8 :
    ∀ (reg : Registry) (chat_id : String),
      get_chat_history (clear_chat_session reg chat_id) chat_id = [] ∧
      ∀ other, other ≠ chat_id →
        clear_chat_session reg chat_id other = reg other ∧
        get_chat_history (clear_chat_session reg chat_id) other =
          get_chat_history reg other := by
  intro reg chat_id
  constructor
  · simp [get_chat_history, clear_chat_session]
  · intro other hne
    have heq : clear_chat_session reg chat_id other = reg other := by
      simp [clear_chat_session, hne]
    exact ⟨heq, by simp [get_chat_history, heq]⟩

def demoSession : ChatSessionM :=
  { history := [{ role := "user", parts := [some "hello"] },
                { role := "model", parts := [some "hi there"] }] }

def demoRegistry : Registry :=
  fun k => if k = "a" then some demoSession
           else if k = "b" then some demoSession else none

/-- Witness for C8 on a two-session registry. -/
theorem clear_session_frame_c8_witness :
    get_chat_history (clear_chat_session demoRegistry "a") "a" = [] ∧
    get_chat_history (clear_chat_session demoRegistry "a") "b" =
      get_chat_history demoRegistry "b" := by
  refine ⟨(clear_session_frame_c8 demoRegistry "a").1, ?_⟩
  exact ((clear_session_frame_c8 demoRegistry "a").2 "b" (by decide)).2

theorem validate_url_general (o : HttpOracle) (url ct : String)
    (h1 : (parseUrl url).1 ≠ "") (h2 : (parseUrl url).2 ≠ "")
    (h3 : ¬(ct = "video" ∧ strContains (parseUrl url).2 "youtube.com"))
    (h3b : ¬(ct = "video" ∧ strContains (parseUrl url).2 "youtu.be"))
    (h4 : ct ≠ "podcast") :
    validate_url o url ct = validateGeneral o url (initResult url) := by
  unfold validate_url
  simp [h1, h2, h3, h3b, h4]

/-- C10: for a general (non-YouTube-video, non-podcast) URL with a valid
scheme and netloc, whenever the HEAD — or, after HEAD raises, the fallback
GET — completes, the result is valid exactly when the status code is 200
or 403; consequently `validate_content_batch` retains an item whose URL
answers 403, annotated with the validation record. -/
theorem general_url_403_c10 :
    (∀ (o : HttpOracle) (url ct cty : String) (st : Nat),
       (parseUrl url).1 ≠ "" → (parseUrl url).2 ≠ "" →
       ¬(ct = "video" ∧ strContains (parseUrl url).2 "youtube.com") →
       ¬(ct = "video" ∧ strContains (parseUrl url).2 "youtu.be") →
       ct ≠ "podcast" →
       ((o.head url = ReqOutcome.ok st cty →
          (validate_url o url ct).is_valid = (st = 200 || st = 403)) ∧
        ((o.head url = ReqOutcome.timeout ∨ o.head url = ReqOutcome.reqError) →
          o.get url = ReqOutcome.ok st cty →
          (validate_url o url ct).is_valid = (st = 200 || st = 403)))) ∧
    (∀ (o : HttpOracle) (now cty : String) (fs : List (String × JsonVal)) (u c : String),
       jGet fs "url" (JsonVal.str "") = JsonVal.str u →
       jGet fs "type" (JsonVal.str "") = JsonVal.str c →
       (parseUrl u).1 ≠ "" → (parseUrl u).2 ≠ "" →
       ¬(c = "video" ∧ strContains (parseUrl u).2 "youtube.com") →
       ¬(c = "video" ∧ strContains (parseUrl u).2 "youtu.be") →
       c ≠ "podcast" →
       o.head u = ReqOutcome.ok 403 cty →
       validate_content_batch o now [JsonVal.obj fs] =
         [JsonVal.obj (insertMem fs "validation"
           (validationJson now (validate_url o u c)))]) := by
  constructor
  · intro o url ct cty st h1 h2 h3 h3b h4
    rw [validate_url_general o url ct h1 h2 h3 h3b h4]
    constructor
    · intro hh
      simp [validateGeneral, hh]
    · intro hfail hget
      rcases hfail with hf | hf <;> simp [validateGeneral, hf, hget]
  · intro o now cty fs u c hurl hty h1 h2 h3 h3b h4 hh
    have hvu := validate_url_general o u c h1 h2 h3 h3b h4
    have hvalid : (validate_url o u c).is_valid = true := by
      rw [hvu]
      simp [validateGeneral, hh]
    simp [validate_content_batch, validate_single_item, hurl, hty, hvalid]

def oracle403 : HttpOracle :=
  { head := fun _ => ReqOutcome.ok 403 "text/html"
    get := fun _ => ReqOutcome.ok 403 "text/html"
    pageTitleOk := fun _ => false }

def item403 : List (String × JsonVal) :=
  [("url", JsonVal.str "https://example.com/a"), ("type", JsonVal.str "article"),
   ("title", JsonVal.str "t")]

/-- Witness for C10 at a concrete 403-answering article URL. -/
theorem general_url_403_c10_witness :
    validate_content_batch oracle403 "T" [JsonVal.obj item403] =
      [JsonVal.obj (insertMem item403 "validation"
        (validationJson "T" (validate_url oracle403 "https://example.com/a" "article")))] := by
  exact general_url_403_c10.2 oracle403 "T" "text/html" item403
    "https://example.com/a" "article" rfl rfl (by decide) (by decide)
    (by decide) (by decide) (by decide) rfl

/-- C4: when the model stream raises before yielding any chunk, the
streaming call substitutes the mock streaming response, and the search
request still emits (after the thoughts) exactly one `results` event whose
single item is the fixed mock item — title starting
"Attention Is All You Need", source "arXiv" — followed by `complete`; no
`error` event occurs for any HTTP-oracle behavior, any clock and any
query. -/
theorem stream_raise_mock_c4 :
    ∀ (o : HttpOracle) (now query : String),
      searchStream query (validate_content_batch o now)
          (callGeminiStreamingChunks (StreamOutcome.raisesAfter [])) =
        [Event.thought (searchInitialThought query),
         Event.thought "I need to search for relevant AI content based on the user\x27s query.",
         Event.thought "Let me analyze what would be most valuable and current in the AI space.",
         Event.thought "I\x27ll look for recent developments and foundational papers that would be helpful.",
         Event.thought "Now I\x27ll compile the search results into a structured JSON format.",
         Event.parsingComplete 1,
         Event.results [mockContentItem],
         Event.complete] ∧
      mockContentItem.source = JsonVal.str "arXiv" ∧
      pyStr mockContentItem.title = "Attention Is All You Need" ++ " - Transformer Paper" :=
  fun _ _ _ => ⟨rfl, rfl, rfl⟩

/-! ## Event-structure lemmas and the C1 claim -/

def terminatedOnce (evs : List Event) : Prop :=
  ∃ pre e, evs = pre ++ [e] ∧ isTerminal e = true ∧ countEv isTerminal pre = 0

def goodRun (evs : List Event) : Prop :=
  ∃ pre xs, evs = pre ++ [Event.results xs, Event.complete] ∧
    countEv isResults pre = 0 ∧ countEv isTerminal pre = 0

def loopInv (pr : List Event × LoopOut) : Prop :=
  countEv isTerminal pr.1 = 0 ∧
  (pr.2 = LoopOut.sent →
    ∃ pre xs, pr.1 = pre ++ [Event.results xs] ∧ countEv isResults pre = 0) ∧
  (pr.2 ≠ LoopOut.sent → countEv isResults pr.1 = 0)

@[simp] theorem isTerminal_thought (s : String) : isTerminal (Event.thought s) = false := rfl
@[simp] theorem isTerminal_parsingComplete (n : Nat) : isTerminal (Event.parsingComplete n) = false := rfl
@[simp] theorem isTerminal_results (xs : List ContentItem) : isTerminal (Event.results xs) = false := rfl
@[simp] theorem isTerminal_complete : isTerminal Event.complete = true := rfl
@[simp] theorem isTerminal_error (e : PyErr) : isTerminal (Event.error e) = true := rfl
@[simp] theorem isResults_thought (s : String) : isResults (Event.thought s) = false := rfl
@[simp] theorem isResults_parsingComplete (n : Nat) : isResults (Event.parsingComplete n) = false := rfl
@[simp] theorem isResults_results (xs : List ContentItem) : isResults (Event.results xs) = true := rfl
@[simp] theorem isResults_complete : isResults Event.complete = false := rfl
@[simp] theorem isResults_error (e : PyErr) : isResults (Event.error e) = false := rfl
@[simp] theorem isErrorEv_thought (s : String) : isErrorEv (Event.thought s) = false := rfl
@[simp] theorem isErrorEv_parsingComplete (n : Nat) : isErrorEv (Event.parsingComplete n) = false := rfl
@[simp] theorem isErrorEv_results (xs : List ContentItem) : isErrorEv (Event.results xs) = false := rfl
@[simp] theorem isErrorEv_complete : isErrorEv Event.complete = false := rfl
@[simp] theorem isErrorEv_error (e : PyErr) : isErrorEv (Event.error e) = true := rfl

theorem countEv_append (p : Event → Bool) (a b : List Event) :
    countEv p (a ++ b) = countEv p a + countEv p b := by
  simp [countEv, List.countP_append]

theorem countEv_cons (p : Event → Bool) (a : Event) (l : List Event) :
    countEv p (a :: l) = countEv p l + (if p a then 1 else 0) := by
  simp [countEv, List.countP_cons]

theorem countEv_nil (p : Event → Bool) : countEv p [] = 0 := rfl

theorem thoughtEvts_terminal (o : Option String) :
    countEv isTerminal (thoughtEvts o) = 0 := by
  cases o <;> simp [thoughtEvts, countEv]

theorem thoughtEvts_results (o : Option String) :
    countEv isResults (thoughtEvts o) = 0 := by
  cases o <;> simp [thoughtEvts, countEv]

theorem loopInv_prepend (tE : List Event) (h1 : countEv isTerminal tE = 0)
    (h2 : countEv isResults tE = 0) (pr : List Event × LoopOut)
    (h : loopInv pr) : loopInv (tE ++ pr.1, pr.2) := by
  obtain ⟨ha, hb, hc⟩ := h
  refine ⟨by simp [countEv_append, h1, ha], ?_, ?_⟩
  · intro hs
    obtain ⟨pre, xs, heq, hpre⟩ := hb hs
    exact ⟨tE ++ pre, xs, by simp [heq], by simp [countEv_append, h2, hpre]⟩
  · intro hs
    simp [countEv_append, h2, hc hs]

theorem searchParse_inv (validate : List JsonVal → List JsonVal)
    (arr : List JsonVal) : loopInv (searchParse validate arr) := by
  rcases hn : normalizeList (if (validate arr).isEmpty ∧ ¬arr.isEmpty then mockResults else validate arr) with e | items
  · have hdef : searchParse validate arr =
        ([Event.parsingComplete arr.length], LoopOut.raised e) := by
      simp only [searchParse, hn]
    rw [hdef]
    refine ⟨by simp [countEv], ?_, ?_⟩
    · intro h; exact LoopOut.noConfusion h
    · intro _; simp [countEv]
  · have hdef : searchParse validate arr =
        ([Event.parsingComplete arr.length, Event.results items], LoopOut.sent) := by
      simp only [searchParse, hn]
    rw [hdef]
    refine ⟨by simp [countEv], ?_, ?_⟩
    · intro _
      exact ⟨[Event.parsingComplete arr.length], items, rfl, by simp [countEv]⟩
    · intro h; exact absurd rfl h

theorem searchLoop_inv (validate : List JsonVal → List JsonVal) :
    ∀ (chunks : List Chunk) (acc : String), loopInv (searchLoop validate chunks acc) := by
  intro chunks
  induction chunks with
  | nil =>
    intro acc
    refine ⟨by simp [searchLoop, countEv], ?_, by simp [searchLoop, countEv]⟩
    intro h
    simp [searchLoop] at h
  | cons c rest ih =>
    intro acc
    rcases hct : optTruthy (classify c).2 with _ | t
    · have hdef : searchLoop validate (c :: rest) acc =
          (thoughtEvts (optTruthy (classify c).1) ++ (searchLoop validate rest acc).1,
           (searchLoop validate rest acc).2) := by
        simp only [searchLoop, hct]
      rw [hdef]
      exact loopInv_prepend _ (thoughtEvts_terminal _) (thoughtEvts_results _) _ (ih acc)
    · rcases hp : tryParse (acc ++ t) with _ | arr
      · have hdef : searchLoop validate (c :: rest) acc =
            (thoughtEvts (optTruthy (classify c).1) ++ (searchLoop validate rest (acc ++ t)).1,
             (searchLoop validate rest (acc ++ t)).2) := by
          simp only [searchLoop, hct, hp]
        rw [hdef]
        exact loopInv_prepend _ (thoughtEvts_terminal _) (thoughtEvts_results _) _ (ih (acc ++ t))
      · have hdef : searchLoop validate (c :: rest) acc =
            (thoughtEvts (optTruthy (classify c).1) ++ (searchParse validate arr).1,
             (searchParse validate arr).2) := by
          simp only [searchLoop, hct, hp]
        rw [hdef]
        exact loopInv_prepend _ (thoughtEvts_terminal _) (thoughtEvts_results _) _
          (searchParse_inv validate arr)

theorem searchStream_shape (query : String) (validate : List JsonVal → List JsonVal)
    (chunks : List Chunk) :
    terminatedOnce (searchStream query validate chunks) ∧
    countEv isResults (searchStream query validate chunks) ≤ 1 ∧
    (countEv isErrorEv (searchStream query validate chunks) = 0 →
      goodRun (searchStream query validate chunks)) := by
  rcases hsl : searchLoop validate chunks "" with ⟨evts, out⟩
  have hinv := searchLoop_inv validate chunks ""
  rw [hsl] at hinv
  obtain ⟨hterm, hsent, hnots⟩ := hinv
  dsimp only at hterm hsent hnots
  cases out with
  | sent =>
    obtain ⟨pre, xs, he, hpre⟩ := hsent rfl
    subst he
    have hevs : searchStream query validate chunks =
        Event.thought (searchInitialThought query) :: (pre ++ [Event.results xs]) ++ [Event.complete] := by
      simp only [searchStream, hsl]
    have hpret : countEv isTerminal pre = 0 := by
      simp [countEv_append, countEv_cons, countEv_nil] at hterm
      exact hterm
    refine ⟨?_, ?_, ?_⟩
    · refine ⟨Event.thought (searchInitialThought query) :: (pre ++ [Event.results xs]),
        Event.complete, by simp [hevs], rfl, ?_⟩
      simp [countEv_append, countEv_cons, countEv_nil, hpret]
    · rw [hevs]
      simp [countEv_append, countEv_cons, countEv_nil, hpre]
    · intro _
      refine ⟨Event.thought (searchInitialThought query) :: pre, xs, by simp [hevs], ?_, ?_⟩
      · simp [countEv_cons, hpre]
      · simp [countEv_cons, hpret]
  | ended =>
    have hevs : searchStream query validate chunks =
        Event.thought (searchInitialThought query) :: evts ++
          [Event.results [mockContentItem], Event.complete] := by
      simp only [searchStream, hsl, normalizeList_mockResults]
    have hr : countEv isResults evts = 0 := hnots (fun h => LoopOut.noConfusion h)
    refine ⟨?_, ?_, ?_⟩
    · refine ⟨Event.thought (searchInitialThought query) :: evts ++ [Event.results [mockContentItem]],
        Event.complete, by simp [hevs], rfl, ?_⟩
      simp [countEv_append, countEv_cons, countEv_nil, hterm]
    · rw [hevs]
      simp [countEv_append, countEv_cons, countEv_nil, hr]
    · intro _
      refine ⟨Event.thought (searchInitialThought query) :: evts, [mockContentItem], by simp [hevs], ?_, ?_⟩
      · simp [countEv_cons, hr]
      · simp [countEv_cons, hterm]
  | raised e =>
    have hevs : searchStream query validate chunks =
        Event.thought (searchInitialThought query) :: evts ++ [Event.error e] := by
      simp only [searchStream, hsl]
    have hr : countEv isResults evts = 0 := hnots (fun h => LoopOut.noConfusion h)
    refine ⟨?_, ?_, ?_⟩
    · refine ⟨Event.thought (searchInitialThought query) :: evts, Event.error e, by simp [hevs], rfl, ?_⟩
      simp [countEv_cons, hterm]
    · rw [hevs]
      simp [countEv_append, countEv_cons, countEv_nil, hr]
    · intro hno
      rw [hevs] at hno
      simp [countEv_append, countEv_cons, countEv_nil] at hno



theorem recLoop_counts : ∀ (chunks : List Chunk) (acc : String),
    countEv isTerminal (recLoop chunks acc).1 = 0 ∧
    countEv isResults (recLoop chunks acc).1 = 0 := by
  intro chunks
  induction chunks with
  | nil => intro acc; simp [recLoop, countEv]
  | cons c rest ih =>
    intro acc
    have hdef : (recLoop (c :: rest) acc).1 =
        thoughtEvts (optTruthy (classify c).1) ++
          (recLoop rest (match optTruthy (classify c).2 with
            | some t => acc ++ t
            | none => acc)).1 := by
      simp only [recLoop]
    rw [hdef]
    obtain ⟨h1, h2⟩ := ih (match optTruthy (classify c).2 with
      | some t => acc ++ t
      | none => acc)
    exact ⟨by simp [countEv_append, thoughtEvts_terminal, h1],
           by simp [countEv_append, thoughtEvts_results, h2]⟩

theorem goodShape (pre : List Event) (xs : List ContentItem) (q : Event)
    (hq1 : isTerminal q = false) (hq2 : isResults q = false)
    (h1 : countEv isTerminal pre = 0) (h2 : countEv isResults pre = 0) :
    terminatedOnce (q :: pre ++ [Event.results xs, Event.complete]) ∧
    countEv isResults (q :: pre ++ [Event.results xs, Event.complete]) = 1 ∧
    goodRun (q :: pre ++ [Event.results xs, Event.complete]) := by
  refine ⟨⟨q :: pre ++ [Event.results xs], Event.complete, by simp, rfl, ?_⟩, ?_,
    ⟨q :: pre, xs, by simp, ?_, ?_⟩⟩
  · simp [countEv_append, countEv_cons, countEv_nil, h1, hq1]
  · simp [countEv_append, countEv_cons, countEv_nil, h2, hq2]
  · simp [countEv_cons, h2, hq2]
  · simp [countEv_cons, h1, hq1]

theorem recStream_shape (lookupCall : String → String → Except PyErr (List String))
    (chunks : List Chunk) (streamRaises : Bool) :
    terminatedOnce (recStream lookupCall chunks streamRaises) ∧
    countEv isResults (recStream lookupCall chunks streamRaises) = 1 ∧
    goodRun (recStream lookupCall chunks streamRaises) := by
  rcases hlr : recLoop chunks "" with ⟨thEvts, acc⟩
  have hc := recLoop_counts chunks ""
  rw [hlr] at hc
  obtain ⟨ht0, hr0⟩ := hc
  dsimp only at ht0 hr0
  cases streamRaises with
  | true =>
    have hevs : recStream lookupCall chunks true =
        Event.thought recInitialThought :: thEvts ++
          [Event.results [mockContentItem], Event.complete] := by
      simp [recStream, hlr, normalizeList_mockResults]
    rw [hevs]
    exact goodShape thEvts [mockContentItem] _ rfl rfl ht0 hr0
  | false =>
    rcases hp : tryParse acc with _ | arr
    · have hevs : recStream lookupCall chunks false =
          Event.thought recInitialThought :: thEvts ++
            [Event.results [mockContentItem], Event.complete] := by
        simp [recStream, hlr, hp, normalizeList_mockResults]
      rw [hevs]
      exact goodShape thEvts [mockContentItem] _ rfl rfl ht0 hr0
    · rcases hf : recFinish lookupCall arr with e | items
      · have hevs : recStream lookupCall chunks false =
            Event.thought recInitialThought :: (thEvts ++ [Event.parsingComplete arr.length]) ++
              [Event.results [mockContentItem], Event.complete] := by
          simp [recStream, hlr, hp, hf, normalizeList_mockResults]
        rw [hevs]
        refine goodShape _ [mockContentItem] _ rfl rfl ?_ ?_
        · simp [countEv_append, countEv_cons, countEv_nil, ht0]
        · simp [countEv_append, countEv_cons, countEv_nil, hr0]
      · have hevs : recStream lookupCall chunks false =
            Event.thought recInitialThought :: (thEvts ++ [Event.parsingComplete arr.length]) ++
              [Event.results items, Event.complete] := by
          simp [recStream, hlr, hp, hf]
        rw [hevs]
        refine goodShape _ items _ rfl rfl ?_ ?_
        · simp [countEv_append, countEv_cons, countEv_nil, ht0]
        · simp [countEv_append, countEv_cons, countEv_nil, hr0]

/-- A chunk whose answer text parses to one item with a reachable URL and
a numeric description. -/
def badDescChunk : Chunk :=
  mkAnswerChunk "[\x7b\x22url\x22:\x22https://arxiv.org/abs/1706.03762\x22,\x22description\x22:123\x7d]"

/-- C1 counterexample: in search mode a parsed item whose `description` is
the truthy non-string `123` survives URL validation (its URL answers 200),
so normalization raises `TypeError`, which escapes to the outer handler:
the run emits `thought`, `parsing_complete`, then the `error` terminal —
zero `results` events, refuting "exactly one `results` event ... for every
chunk sequence". -/
theorem one_results_event_counterexample :
    searchStream "q" (validate_content_batch oracle200 "T") [badDescChunk] =
      [Event.thought (searchInitialThought "q"), Event.parsingComplete 1,
       Event.error PyErr.typeError] ∧
    countEv isResults (searchStream "q" (validate_content_batch oracle200 "T") [badDescChunk]) = 0 :=
  ⟨rfl, rfl⟩

/-- C1 (amended): every search-mode run ends with exactly one terminal
event (nothing after it) and emits at most one `results` event — exactly
one, immediately followed by the `complete` terminal, whenever no `error`
event occurs (normalization of the validated items does not raise); every
recommendation-mode run emits exactly one `results` event (parsed or mock
fallback) immediately followed by `complete`, with nothing after it, for
any chunk sequence, lookup behavior and stream-raise outcome.  The
results-free prefix in `goodRun` is the `results_sent` monotonicity: no
`results` event precedes (or follows) the unique one. -/
theorem one_results_event_c1 :
    (∀ (query : String) (validate : List JsonVal → List JsonVal) (chunks : List Chunk),
       terminatedOnce (searchStream query validate chunks) ∧
       countEv isResults (searchStream query validate chunks) ≤ 1 ∧
       (countEv isErrorEv (searchStream query validate chunks) = 0 →
         goodRun (searchStream query validate chunks))) ∧
    (∀ (lookupCall : String → String → Except PyErr (List String))
       (chunks : List Chunk) (streamRaises : Bool),
       terminatedOnce (recStream lookupCall chunks streamRaises) ∧
       countEv isResults (recStream lookupCall chunks streamRaises) = 1 ∧
       goodRun (recStream lookupCall chunks streamRaises)) :=
  ⟨searchStream_shape, recStream_shape⟩

/-- Witness for C1 (amended): the error-free implication discharged on the
empty chunk sequence. -/
theorem one_results_event_c1_witness :
    goodRun (searchStream "q" (fun xs => xs) []) :=
  (one_results_event_c1.1 "q" (fun xs => xs) []).2.2 (by decide)

/-! ## Accumulation-timing lemmas and the C2 claim -/

def joinStrs : List String → String
  | [] => ""
  | s :: ss => s ++ joinStrs ss

/-- The concatenation of all (truthy) answer fragments of a chunk list. -/
def recAccumText (chunks : List Chunk) : String :=
  joinStrs (chunks.map fun c =>
    match optTruthy (classify c).2 with
    | some s => s
    | none => "")

theorem recLoop_acc : ∀ (chunks : List Chunk) (acc : String),
    (recLoop chunks acc).2 = acc ++ recAccumText chunks := by
  intro chunks
  induction chunks with
  | nil => intro acc; simp [recLoop, recAccumText, joinStrs]
  | cons c rest ih =>
    intro acc
    have hdef : (recLoop (c :: rest) acc).2 =
        (recLoop rest (match optTruthy (classify c).2 with
          | some t => acc ++ t
          | none => acc)).2 := by
      simp only [recLoop]
    rw [hdef, ih]
    rcases h : optTruthy (classify c).2 with _ | s
    · simp [recAccumText, joinStrs, h]
    · simp [recAccumText, joinStrs, h, String.append_assoc]

theorem recLoop_mem (t : String) (ht : t ≠ "") :
    ∀ (chunks : List Chunk) (acc : String),
      Event.thought t ∈ (recLoop (chunks ++ [mkThinkingChunk t]) acc).1 := by
  intro chunks
  induction chunks with
  | nil =>
    intro acc
    simp [recLoop, classify_thinking_chunk t ht, optTruthy, thoughtEvts, ht]
  | cons c rest ih =>
    intro acc
    have hdef : (recLoop ((c :: rest) ++ [mkThinkingChunk t]) acc).1 =
        thoughtEvts (optTruthy (classify c).1) ++
          (recLoop (rest ++ [mkThinkingChunk t]) (match optTruthy (classify c).2 with
            | some s => acc ++ s
            | none => acc)).1 := rfl
    rw [hdef]
    exact List.mem_append_right _ (ih _)

theorem recLoop_mem_stream (lookupCall : String → String → Except PyErr (List String))
    (chunks : List Chunk) (streamRaises : Bool) (ev : Event)
    (h : ev ∈ (recLoop chunks "").1) :
    ev ∈ recStream lookupCall chunks streamRaises := by
  rcases hlr : recLoop chunks "" with ⟨thEvts, acc⟩
  rw [hlr] at h
  dsimp only at h
  cases streamRaises with
  | true =>
    have hevs : recStream lookupCall chunks true =
        Event.thought recInitialThought :: thEvts ++
          [Event.results [mockContentItem], Event.complete] := by
      simp [recStream, hlr, normalizeList_mockResults]
    rw [hevs]
    simp [h]
  | false =>
    rcases hp : tryParse acc with _ | arr
    · have hevs : recStream lookupCall chunks false =
          Event.thought recInitialThought :: thEvts ++
            [Event.results [mockContentItem], Event.complete] := by
        simp [recStream, hlr, hp, normalizeList_mockResults]
      rw [hevs]
      simp [h]
    · rcases hf : recFinish lookupCall arr with e | items
      · have hevs : recStream lookupCall chunks false =
            Event.thought recInitialThought :: (thEvts ++ [Event.parsingComplete arr.length]) ++
              [Event.results [mockContentItem], Event.complete] := by
          simp [recStream, hlr, hp, hf, normalizeList_mockResults]
        rw [hevs]
        simp [h]
      · have hevs : recStream lookupCall chunks false =
            Event.thought recInitialThought :: (thEvts ++ [Event.parsingComplete arr.length]) ++
              [Event.results items, Event.complete] := by
          simp [recStream, hlr, hp, hf]
        rw [hevs]
        simp [h]

/-- C2 counterexample: in recommendation mode the orchestrator does not
stop consuming chunks after the first successful parse — after the first
chunk the accumulated text `[1]` already parses, yet the thinking text of
the second chunk is still emitted. -/
theorem rec_early_exit_counterexample :
    tryParse "[1]" = some [JsonVal.num 1 ""] ∧
    Event.thought "LATE" ∈
      recStream (fun _ _ => Except.error PyErr.otherError)
        [mkAnswerChunk "[1]", mkThinkingChunk "LATE"] false := by
  refine ⟨rfl, ?_⟩
  have h : recStream (fun _ _ => Except.error PyErr.otherError)
      [mkAnswerChunk "[1]", mkThinkingChunk "LATE"] false =
      [Event.thought recInitialThought, Event.thought "LATE", Event.parsingComplete 1,
       Event.results [mockContentItem], Event.complete] := rfl
  rw [h]
  simp

/-- C2 (amended): only search mode attempts extraction after each chunk and
stops on the first successful parse — the remaining chunks are discarded
(the loop result does not depend on them) and the run continues with the
parse block; recommendation mode consumes the entire stream (a trailing
chunk's thought is always emitted, whatever came before) and parses once,
on the concatenation of all accumulated answer fragments. -/
theorem parse_timing_c2 :
    (∀ (validate : List JsonVal → List JsonVal) (acc t : String) (arr : List JsonVal)
       (c : Chunk) (rest rest2 : List Chunk),
       classify c = (none, some t) → t ≠ "" → tryParse (acc ++ t) = some arr →
       searchLoop validate (c :: rest) acc = searchLoop validate (c :: rest2) acc ∧
       searchLoop validate (c :: rest) acc = searchParse validate arr) ∧
    (∀ (lookupCall : String → String → Except PyErr (List String))
       (chunks : List Chunk) (t : String), t ≠ "" →
       Event.thought t ∈ recStream lookupCall (chunks ++ [mkThinkingChunk t]) false) ∧
    (∀ chunks : List Chunk, (recLoop chunks "").2 = recAccumText chunks) := by
  refine ⟨?_, ?_, ?_⟩
  · intro validate acc t arr c rest rest2 hc ht hp
    constructor <;> simp [searchLoop, hc, optTruthy, ht, hp, thoughtEvts]
  · intro lookupCall chunks t ht
    exact recLoop_mem_stream lookupCall _ false _ (recLoop_mem t ht chunks "")
  · intro chunks
    simpa using recLoop_acc chunks ""

/-- Witness for C2 (amended): the search early exit on a concrete two-chunk
stream whose first chunk parses, and the rec-mode full consumption on a
one-chunk stream. -/
theorem parse_timing_c2_witness :
    searchLoop (fun xs => xs) [mkAnswerChunk "[1]", mkThinkingChunk "IGNORED"] "" =
      searchParse (fun xs => xs) [JsonVal.num 1 ""] ∧
    Event.thought "x" ∈ recStream (fun _ _ => Except.ok []) [mkThinkingChunk "x"] false := by
  constructor
  · exact (parse_timing_c2.1 (fun xs => xs) "" "[1]" [JsonVal.num 1 ""] (mkAnswerChunk "[1]")
      [mkThinkingChunk "IGNORED"] [] (classify_answer_chunk "[1]" (by decide)) (by decide) rfl).2
  · simpa using parse_timing_c2.2.1 (fun _ _ => Except.ok []) [] "x" (by decide)

end NewsFinder
